import Mathlib

/-!
# corroclient: rows, event decoding and the subscription pump

A shallow embedding of `rows.go`, `subscribe.go`, `subscriptions.go` and
`corroclient.go`.  Go `error` values are the constructors of `Err`; a method
that mutates its receiver returns the new receiver; the goroutine
`Subscription.run` is a function from the frames it reads to the ordered list
of effects it performs.
-/

namespace Corroclient

/-! ## Errors -/

/-- Go `error` values met in the package.  The sentinels declared with
`errors.New` at package level are constructors of their own, since the code
compares them by identity (`err == ErrUnrecoverableSub`). -/
inductive Err where
  /-- `io.EOF` -/
  | eof
  /-- `io.ErrClosedPipe` -/
  | errClosedPipe
  /-- `ErrScan` (rows.go) -/
  | errScan
  /-- `ErrMissedChange` -/
  | errMissedChange
  /-- `ErrMaxRetryExceeded` -/
  | errMaxRetryExceeded
  /-- `ErrSubscriptionClosed` -/
  | errSubscriptionClosed
  /-- `ErrUnrecoverableSub` -/
  | errUnrecoverableSub
  /-- `ErrUnknownEvent` -/
  | errUnknownEvent
  /-- `errNotFound` -/
  | errNotFound
  /-- `errors.New("corrosubs: Invalid status code")` in `getSub` -/
  | invalidStatusCode
  /-- `fmt.Errorf("you must call Next at least once before calling Scan")` -/
  | scanBeforeNext
  /-- `errors.New(*e.Error)`: the error carried by a remote error event -/
  | remote (msg : String)
  /-- an error made outside the package (transport, JSON decoding, ...) -/
  | foreign (msg : String)
  /-- `fmt.Errorf("%w, failed to scan JSON ...", err, value)` -/
  | wrapped (inner : Err) (context : String)
  deriving DecidableEq, Repr

/-! ## Values and rows (rows.go) -/

/-- A Go `float64`, kept as its IEEE-754 bit pattern.  The code under study
only passes such a value on to `scanJSONNumber`. -/
structure Float64 where
  bits : Nat
  deriving DecidableEq, Repr

/-- Modelled from the spec: the element type of `Row.values` is Go's `any` as
filled in by `encoding/json`; the spec lists `nil`, a float64-equivalent
number, a string and a bool.  `composite` stands for the remaining dynamic
types (`[]any`, `map[string]any`), which the type switch of `Row.Scan` has no
case for. -/
inductive Value where
  | null
  | number (v : Float64)
  | str (v : String)
  | bool (v : Bool)
  | composite
  deriving DecidableEq, Repr

/-- Modelled from the spec: the declaration of `Row` is not among the sources
at hand; these are the two fields that `Row.Scan` and `readNext` use. -/
structure Row where
  columns : List String
  values : List Value
  deriving DecidableEq, Repr

/-- The coercion helpers `scanJSONNumber`, `scanJSONString`, `scanJSONBool`
called by `Row.Scan`.  Their bodies are not among the sources at hand, so they
are parameters: each receives the source value and the destination it was
handed (`dest[i]`, whose content has type `D`), and yields the content of that
destination afterwards together with the `error` it returns.  The destinations
are distinct variables: a helper writes to the one it is handed and to no
other. -/
structure Scanners (D : Type) where
  scanJSONNumber : Float64 → D → D × Option Err
  scanJSONString : String → D → D × Option Err
  scanJSONBool : Bool → D → D × Option Err

/-- How a call of `Scan` ends: it returns (`err` is Go's `error`, `none` being
`nil`), or the index expression `dest[i]` / `r.rows[i]` is out of range and the
call panics.  Both carry the destinations as they are at that point. -/
inductive ScanResult (D : Type) where
  | returned (err : Option Err) (dest : List D)
  | indexOutOfRange (dest : List D)
  deriving DecidableEq, Repr

/-- The destinations held when the call ends. -/
def ScanResult.dest {D : Type} : ScanResult D → List D
  | .returned _ dest => dest
  | .indexOutOfRange dest => dest

/-- Whether the call returned a non-nil error. -/
def ScanResult.isError {D : Type} : ScanResult D → Bool
  | .returned (some _) _ => true
  | _ => false

/-- The loop `for i, value := range r.values` of `Row.Scan`, entered at index
`i` with the values from `i` on still to visit. -/
def Row.scanFrom {D : Type} (sc : Scanners D) : List Value → Nat → List D → ScanResult D
  | [], _, dest => .returned none dest
  | value :: rest, i, dest =>
    match value with
    | .null => Row.scanFrom sc rest (i + 1) dest
    | .number v =>
      match dest[i]? with
      | none => .indexOutOfRange dest
      | some d =>
        match sc.scanJSONNumber v d with
        | (d1, some err) =>
          .returned (some (.wrapped err "failed to scan JSON float64")) (dest.set i d1)
        | (d1, none) => Row.scanFrom sc rest (i + 1) (dest.set i d1)
    | .str v =>
      match dest[i]? with
      | none => .indexOutOfRange dest
      | some d =>
        match sc.scanJSONString v d with
        | (d1, some err) =>
          .returned (some (.wrapped err "failed to scan JSON string")) (dest.set i d1)
        | (d1, none) => Row.scanFrom sc rest (i + 1) (dest.set i d1)
    | .bool v =>
      match dest[i]? with
      | none => .indexOutOfRange dest
      | some d =>
        match sc.scanJSONBool v d with
        | (d1, some err) =>
          .returned (some (.wrapped err "failed to scan JSON bool")) (dest.set i d1)
        | (d1, none) => Row.scanFrom sc rest (i + 1) (dest.set i d1)
    | .composite => Row.scanFrom sc rest (i + 1) dest

/-- `func (r *Row) Scan(dest ...any) error`.  `dest` lists the contents of the
destinations, one slot per argument. -/
def Row.Scan {D : Type} (sc : Scanners D) (r : Row) (dest : List D) : ScanResult D :=
  Row.scanFrom sc r.values 0 dest

/-- `type Rows struct` without its mutex: calls are serialised. -/
structure Rows where
  columns : List String
  rows : List Row
  currentIndex : Int
  deriving DecidableEq, Repr

/-- `func (r *Rows) Columns() []string` -/
def Rows.Columns (r : Rows) : List String := r.columns

/-- `func (r *Rows) Next() bool`: the value returned and the cursor afterwards. -/
def Rows.Next (r : Rows) : Bool × Rows :=
  if r.currentIndex = (r.rows.length : Int) - 1 then
    (false, r)
  else
    (true, { r with currentIndex := r.currentIndex + 1 })

/-- `func (r *Rows) Scan(dest ...any) error` -/
def Rows.Scan {D : Type} (sc : Scanners D) (r : Rows) (dest : List D) : ScanResult D :=
  if r.currentIndex = -1 then
    .returned (some .scanBeforeNext) dest
  else if r.currentIndex < 0 then
    .indexOutOfRange dest
  else
    match r.rows[r.currentIndex.toNat]? with
    | none => .indexOutOfRange dest
    | some row => Row.Scan sc row dest

/-- The cursor after `k` successive calls of `Rows.Next`. -/
def Rows.afterNext : Nat → Rows → Rows
  | 0, r => r
  | k + 1, r => (Rows.Next (Rows.afterNext k r)).2

/-- The values returned by the first `k` successive calls of `Rows.Next`. -/
def Rows.nextResults : Nat → Rows → List Bool
  | 0, _ => []
  | k + 1, r => Rows.nextResults k r ++ [(Rows.Next (Rows.afterNext k r)).1]

/-! ## Events (subscriptions.go, subscribe.go) -/

/-- Modelled from the spec: the declaration of `EOQ` is not among the sources
at hand; `ChangeId` is the field `readNext` reads, an unsigned 64-bit number. -/
structure EOQ where
  ChangeId : Nat
  deriving DecidableEq, Repr

/-- Modelled from the spec: the declaration of `Change` is not among the
sources at hand; a change carries a row-shaped payload and `ChangeId`, the
unsigned 64-bit number `readNext` reads. -/
structure Change where
  ChangeId : Nat
  values : List Value
  deriving DecidableEq, Repr

/-- Modelled from the spec: the interface `Event` and its five implementations
are declared outside the sources at hand; the spec gives the closed variant
Columns, Row, Change, EndOfQuery, Error.  `error` holds the field `err` of
`*Error`. -/
inductive Event where
  | columns (c : List String)
  | row (r : Row)
  | eoq (e : EOQ)
  | change (c : Change)
  | error (err : Err)
  deriving DecidableEq, Repr

/-- `type event struct`: the envelope `json.Unmarshal` fills.  A pointer or
slice field left `nil` is `none`. -/
structure event where
  EOQ : Option EOQ
  Columns : Option (List String)
  Row : Option (List Value)
  Change : Option (List Value)
  Error : Option String
  deriving DecidableEq, Repr

/-- How many of the five fields of the envelope are populated. -/
def event.populated (e : event) : Nat :=
  (if e.EOQ.isSome then 1 else 0) + (if e.Columns.isSome then 1 else 0)
    + (if e.Row.isSome then 1 else 0) + (if e.Change.isSome then 1 else 0)
    + (if e.Error.isSome then 1 else 0)

/-- The helpers `readRow` and `readChange` called by `readEvent`; their bodies
are not among the sources at hand, so they are parameters. -/
structure Readers where
  readRow : List Value → Except Err Row
  readChange : List Value → Except Err Change

/-- `func readEvent(data []byte) (Event, error)`.  The argument is what
`json.Unmarshal(data, &e)` produced: its error, or the filled envelope. -/
def readEvent (rd : Readers) (data : Except Err event) : Except Err Event :=
  match data with
  | .error err => .error err
  | .ok e =>
    match e.Columns with
    | some c => .ok (.columns c)
    | none =>
      match e.Row with
      | some r =>
        match rd.readRow r with
        | .ok row => .ok (.row row)
        | .error err => .error err
      | none =>
        match e.Change with
        | some c =>
          match rd.readChange c with
          | .ok ch => .ok (.change ch)
          | .error err => .error err
        | none =>
          match e.EOQ with
          | some q => .ok (.eoq q)
          | none =>
            match e.Error with
            | some msg => .ok (.error (.remote msg))
            | none => .error .errUnknownEvent

/-- What one call of `readNextRaw` followed by `json.Unmarshal` meets on the
byte stream: `reader.ReadLine` fails with `err`, or it yields a line, which
`json.Unmarshal` rejects or decodes into an envelope. -/
inductive Frame where
  | readErr (err : Err)
  | line (data : Except Err event)

/-! ## The subscription (subscribe.go) -/

/-- `type Subscription struct`.  The channel `errored` is the flag
`erroredClosed`; the channel `events`, the byte stream and the context are in
the effects of `run`. -/
structure Subscription where
  id : String
  hash : String
  err : Option Err
  erroredClosed : Bool
  lastChangeId : Nat
  seenEoq : Bool
  columns : List String
  maxRetries : Int
  retries : Int
  deriving DecidableEq, Repr

/-- `func (s *Subscription) readNext(reader *bufio.Reader) (Event, error)` on
the frame the reader meets: the pair returned and the subscription afterwards.
`lastChangeId` is a `uint64`, so `s.lastChangeId+1` wraps at `2^64`.  For a
columns frame `readEvent` returns `e.Columns`, a `Columns` value and not a
pointer to one, so the case `*Columns` of the type switch does not match it:
the event is returned and `s.columns` stays as it was. -/
def Subscription.readNext (rd : Readers) (s : Subscription) (f : Frame) :
    Except Err Event × Subscription :=
  match f with
  | .readErr err => (.error err, s)
  | .line data =>
    match readEvent rd data with
    | .error _ => (.error .errUnrecoverableSub, s)
    | .ok e =>
      match e with
      | .columns _ => (.ok e, s)
      | .row r => (.ok (.row { r with columns := s.columns }), s)
      | .eoq q => (.ok e, { s with seenEoq := true, lastChangeId := q.ChangeId })
      | .change c =>
        if c.ChangeId ≠ (s.lastChangeId + 1) % 2 ^ 64 then
          (.error .errMissedChange, s)
        else
          (.ok e, { s with lastChangeId := c.ChangeId })
      | .error _ => (.ok e, s)

/-- The events that successive calls of `readNext` return without error over
the given frames, in order. -/
def Subscription.returnedEvents (rd : Readers) : Subscription → List Frame → List Event
  | _, [] => []
  | s, f :: fs =>
    match Subscription.readNext rd s f with
    | (.ok e, s1) => e :: Subscription.returnedEvents rd s1 fs
    | (.error _, s1) => Subscription.returnedEvents rd s1 fs

/-- The change id that the next `Change` must follow, after the listed events
were returned one after the other: the id of the last `Change` or `EOQ` among
them, and `start` when there is none. -/
def lastAcknowledged (start : Nat) : List Event → Nat
  | [] => start
  | .change c :: es => lastAcknowledged c.ChangeId es
  | .eoq q :: es => lastAcknowledged q.ChangeId es
  | _ :: es => lastAcknowledged start es

/-! ## The service boundary (corroclient.go, subscriptions.go) -/

/-- `type Config struct` -/
structure Config where
  URL : String
  Bearer : String

/-- `type CorroClient struct`, without the `*http.Client`. -/
structure CorroClient where
  url : String
  bearer : String

/-- `func (c *CorroClient) getURL(path string) string` -/
def CorroClient.getURL (c : CorroClient) (path : String) : String :=
  c.url ++ path

/-- `func NewCorroClient(config Config) *CorroClient` -/
def NewCorroClient (config : Config) : CorroClient :=
  { url := config.URL, bearer := config.Bearer }

/-- The part of an `*http.Request` the callers set: method, URL and body. -/
structure Request where
  method : String
  url : String
  body : Option String
  deriving DecidableEq, Repr

/-- `fmt.Sprintf("%t", b)` -/
def fmtBool (b : Bool) : String := if b then "true" else "false"

/-- The local variable `path` of `postSubscription` once both statements that
assign it have run. -/
def postSubscriptionPath (skipRows : Bool) (fromId : Nat) : String :=
  let path := "/v1/subscriptions?skip_rows=" ++ fmtBool skipRows
  if fromId ≠ 0 then path ++ ("&from=" ++ toString fromId) else path

/-- `func (c *CorroClient) postSubscription(ctx, statement, skipRows, from)`
up to the request it hands to `c.request`.  `data` is the result of
`json.Marshal(statement)`. -/
def CorroClient.postSubscription (c : CorroClient) (data : Except Err String)
    (skipRows : Bool) (fromId : Nat) : Except Err Request :=
  match data with
  | .error err => .error err
  | .ok payload =>
    let _path := postSubscriptionPath skipRows fromId
    .ok { method := "POST", url := c.getURL "/v1/subscriptions", body := some payload }

/-- The local variable `path` of `getSub`. -/
def getSubPath (subscriptionId : String) (skipRows : Bool) (fromId : Nat) : String :=
  let path := "/v1/subscriptions/" ++ subscriptionId ++ "?skip_rows=" ++ fmtBool skipRows
  if fromId ≠ 0 then path ++ ("&from=" ++ toString fromId) else path

/-- `func (c *CorroClient) getSub(ctx, subscriptionId, skipRows, from)` up to
the request it hands to `c.request`. -/
def CorroClient.getSub (c : CorroClient) (subscriptionId : String) (skipRows : Bool)
    (fromId : Nat) : Request :=
  { method := "GET", url := c.getURL (getSubPath subscriptionId skipRows fromId), body := none }

/-- `type subscribeOptions struct`; `backoff` in nanoseconds. -/
structure subscribeOptions where
  backoff : Int
  maxRetries : Int
  skipRows : Bool
  bufferSize : Int
  deriving DecidableEq, Repr

/-- `type SubOpt func(*subscribeOptions)` -/
abbrev SubOpt := subscribeOptions → subscribeOptions

/-- `func WithRetryOptions(backoff time.Duration, maxRetries int) SubOpt` -/
def WithRetryOptions (backoff : Int) (maxRetries : Int) : SubOpt :=
  fun o => { o with backoff := backoff, maxRetries := maxRetries }

/-- `func WithSkipRows() SubOpt` -/
def WithSkipRows : SubOpt :=
  fun o => { o with skipRows := true }

/-- `func WithBufferSize(size int) SubOpt` -/
def WithBufferSize (size : Int) : SubOpt :=
  fun o => { o with bufferSize := size }

/-- The value of `options` in `Subscribe` after the loop over `opts`. -/
def Subscribe.options (opts : List SubOpt) : subscribeOptions :=
  opts.foldl (fun o opt => opt o)
    { backoff := 1000000000, maxRetries := 10, skipRows := false, bufferSize := 5 }

/-- The request that `Subscribe` issues: its call
`c.postSubscription(ctx, statement, false, 0)`. -/
def Subscribe.request (c : CorroClient) (data : Except Err String) (_opts : List SubOpt) :
    Except Err Request :=
  c.postSubscription data false 0

/-- The `Subscription` that `Subscribe` builds from the response headers and
the options, as `run` first sees it. -/
def Subscribe.subscription (id hash : String) (opts : List SubOpt) : Subscription :=
  { id := id, hash := hash, err := none, erroredClosed := false, lastChangeId := 0,
    seenEoq := false, columns := [], maxRetries := (Subscribe.options opts).maxRetries,
    retries := 0 }

/-! ## The pump `Subscription.run` (subscribe.go) -/

/-- What `getSub` returns to `recoverConn`: a response with status 200,
`errNotFound`, or another error (the transport's, or the invalid-status error
`getSub` makes itself). -/
inductive ResumeOutcome where
  | ok
  | notFound
  | invalidStatus
  | transport (msg : String)
  deriving DecidableEq, Repr

/-- What the pump cannot decide itself: whether the context is cancelled at
the `k`-th evaluation of `hasBeenClosed` (counted from 0), and what the `k`-th
call of `getSub` returns. -/
structure World where
  closedAt : Nat → Bool
  resume : Nat → ResumeOutcome

/-- How many times the pump has consulted each part of the `World`. -/
structure Clock where
  checks : Nat
  resumes : Nat
  deriving DecidableEq, Repr

/-- The effects of the pump that another party can observe, in program order.
`closeErrored` records the content of the slot `s.err` at the moment
`close(s.errored)` runs. -/
inductive Action where
  | read (f : Frame)
  | push (e : Event)
  | setErr (err : Err)
  | closeErrored (slot : Option Err)
  | closeBody
  | getSub (req : Request)
  | swapBody
  | sleep

/-- How the goroutine stands once the frames are used up: `returned` from
`run`; `crashed` on `close` of the already closed channel `errored`;
`waiting` inside `reader.ReadLine` for a frame that has not arrived;
`outOfFuel` if the model of the retry loop stopped early (it never does, see
`retryLoop_fuel`). -/
inductive Halt where
  | returned
  | crashed
  | waiting
  | outOfFuel
  deriving DecidableEq, Repr

/-- The effects performed and how the goroutine stands after them. -/
structure Outcome where
  trace : List Action
  halt : Halt
  sub : Subscription

/-- Put earlier effects in front of an outcome. -/
def Outcome.after (acts : List Action) (o : Outcome) : Outcome :=
  { o with trace := acts ++ o.trace }

/-- `func (s *Subscription) recoverConn() error`: the effects, the error
returned (`none` is `nil`) and the clock afterwards. -/
def Subscription.recoverConn (c : CorroClient) (w : World) (k : Clock) (s : Subscription) :
    List Action × Option Err × Clock :=
  if !s.seenEoq then
    ([], some .errUnrecoverableSub, k)
  else
    let req := Action.getSub (c.getSub s.id true s.lastChangeId)
    let k1 := { k with resumes := k.resumes + 1 }
    match w.resume k.resumes with
    | .notFound => ([req], some .errUnrecoverableSub, k1)
    | .invalidStatus => ([req], some .invalidStatusCode, k1)
    | .transport msg => ([req], some (.foreign msg), k1)
    | .ok => ([req, .swapBody], none, k1)

/-- How the loop `for s.retries < s.maxRetries` and the three statements after
it are left. -/
inductive LoopExit where
  | continueMain
  | returned
  | crashed
  | outOfFuel
  deriving DecidableEq, Repr

/-- The result of the retry loop. -/
structure LoopResult where
  trace : List Action
  exit : LoopExit
  clock : Clock
  sub : Subscription

/-- Put earlier effects in front of a loop result. -/
def LoopResult.after (acts : List Action) (r : LoopResult) : LoopResult :=
  { r with trace := acts ++ r.trace }

/-- The statement `close(s.errored)` followed by `rest`: closing a closed
channel panics. -/
def closeErroredThen (s : Subscription) (rest : Subscription → LoopResult) (k : Clock) :
    LoopResult :=
  if s.erroredClosed then
    { trace := [], exit := .crashed, clock := k, sub := s }
  else
    (rest { s with erroredClosed := true }).after [.closeErrored s.err]

/-- Lines 202-223 of `run`: the loop `for s.retries < s.maxRetries` with the
statements that follow it.  `fuel` bounds the number of iterations. -/
def Subscription.retryLoop (c : CorroClient) (w : World) :
    Nat → Clock → Subscription → LoopResult
  | fuel, k, s =>
    if s.retries < s.maxRetries then
      match fuel with
      | 0 => { trace := [], exit := .outOfFuel, clock := k, sub := s }
      | fuel + 1 =>
        if w.closedAt k.checks then
          { trace := [], exit := .returned, clock := { k with checks := k.checks + 1 }, sub := s }
        else
          let k1 := { k with checks := k.checks + 1 }
          let s1 := { s with retries := s.retries + 1 }
          match Subscription.recoverConn c w k1 s1 with
          | (acts, none, k2) =>
            { trace := acts, exit := .continueMain, clock := k2,
              sub := { s1 with retries := 0 } }
          | (acts, some err, k2) =>
            if err = .errUnrecoverableSub then
              let s2 := { s1 with err := some err }
              (closeErroredThen s2
                (fun s3 => { trace := [], exit := .returned, clock := k2, sub := s3 }) k2).after
                (acts ++ [.setErr err])
            else
              (Subscription.retryLoop c w fuel k2 s1).after (acts ++ [.sleep])
    else
      let s1 := { s with err := some .errMaxRetryExceeded }
      (closeErroredThen s1
        (fun s2 => { trace := [], exit := .returned, clock := k, sub := s2 }) k).after
        [.setErr .errMaxRetryExceeded]

/-- The loop labelled `MAIN` of `run`, one iteration per frame. -/
def Subscription.mainLoop (rd : Readers) (c : CorroClient) (w : World) :
    List Frame → Clock → Subscription → Outcome
  | [], _, s => { trace := [], halt := .waiting, sub := s }
  | f :: fs, k, s =>
    match Subscription.readNext rd s f with
    | (.ok e, s1) =>
      match e with
      | .error remoteErr =>
        if s1.erroredClosed then
          { trace := [.read f], halt := .crashed, sub := s1 }
        else
          { trace := [.read f, .closeErrored s1.err, .setErr remoteErr], halt := .returned,
            sub := { s1 with erroredClosed := true, err := some remoteErr } }
      | _ => (Subscription.mainLoop rd c w fs k s1).after [.read f, .push e]
    | (.error err, s1) =>
      if w.closedAt k.checks then
        { trace := [.read f], halt := .returned, sub := s1 }
      else
        let k1 := { k with checks := k.checks + 1 }
        if err = .eof ∨ err = .errClosedPipe then
          let r := Subscription.retryLoop c w (s1.maxRetries - s1.retries).toNat k1 s1
          match r.exit with
          | .continueMain =>
            (Subscription.mainLoop rd c w fs r.clock r.sub).after
              ([.read f, .closeBody] ++ r.trace)
          | .returned =>
            { trace := [.read f, .closeBody] ++ r.trace, halt := .returned, sub := r.sub }
          | .crashed =>
            { trace := [.read f, .closeBody] ++ r.trace, halt := .crashed, sub := r.sub }
          | .outOfFuel =>
            { trace := [.read f, .closeBody] ++ r.trace, halt := .outOfFuel, sub := r.sub }
        else
          let s2 := { s1 with err := some err }
          if s2.erroredClosed then
            { trace := [.read f, .setErr err], halt := .crashed, sub := s2 }
          else
            (Subscription.mainLoop rd c w fs k1 { s2 with erroredClosed := true }).after
              [.read f, .setErr err, .closeErrored s2.err]

/-- `func (s *Subscription) run()` over the frames its reader meets.  The
deferred function closes the body when `run` returns or panics; while the
goroutine waits for a frame it has not run. -/
def Subscription.run (rd : Readers) (c : CorroClient) (w : World) (s : Subscription)
    (frames : List Frame) : Outcome :=
  let o := Subscription.mainLoop rd c w frames { checks := 0, resumes := 0 } s
  match o.halt with
  | .waiting => o
  | .outOfFuel => o
  | _ => { o with trace := o.trace ++ [.closeBody] }

/-- What `Next` can see of the subscription at one moment. -/
structure View where
  queue : List Event
  erroredClosed : Bool
  err : Option Err
  cancelled : Bool

/-- The view once the pump has performed the listed effects and nothing has
been received from the queue. -/
def viewAfter : List Action → View → View
  | [], v => v
  | .push e :: as, v => viewAfter as { v with queue := v.queue ++ [e] }
  | .setErr err :: as, v => viewAfter as { v with err := some err }
  | .closeErrored _ :: as, v => viewAfter as { v with erroredClosed := true }
  | _ :: as, v => viewAfter as v

/-- The view of a subscription that `Subscribe` has just returned. -/
def View.initial : View :=
  { queue := [], erroredClosed := false, err := none, cancelled := false }

/-- `func (s *Subscription) Next() (Event, error)`: the pairs its `select` can
return at this moment, one per case that is ready (no pair: the call blocks). -/
def Subscription.Next (v : View) : List (Option Event × Option Err) :=
  (match v.queue with
    | e :: _ => [(some e, none)]
    | [] => [])
  ++ (if v.erroredClosed then [(none, v.err)] else [])
  ++ (if v.cancelled then [(none, some .errSubscriptionClosed)] else [])

/-- The number of `getSub` requests among the effects. -/
def countGetSub : List Action → Nat
  | [] => 0
  | .getSub _ :: as => countGetSub as + 1
  | _ :: as => countGetSub as

/-! ## Helpers for the statements -/

/-- Stand-in helpers for evaluating `Row.Scan` at concrete inputs: every
coercion stores 1 in the destination and succeeds. -/
def sampleScanners : Scanners Nat :=
  { scanJSONNumber := fun _ _ => (1, none)
    scanJSONString := fun _ _ => (1, none)
    scanJSONBool := fun _ _ => (1, none) }

/-- Stand-in cursor for evaluating `Rows.Next` at a concrete input: two
buffered rows, positioned before the first. -/
def sampleRows : Rows :=
  { columns := ["a"], rows := [⟨["a"], [.null]⟩, ⟨["a"], [.bool true]⟩], currentIndex := -1 }

/-- Whether the event is a `Change` or an `EOQ`, the two that move `lastChangeId`. -/
def Event.movesChangeId : Event → Bool
  | .change _ => true
  | .eoq _ => true
  | _ => false

/-- The envelope of an `eoq` frame. -/
def event.ofEOQ (changeId : Nat) : event :=
  { EOQ := some ⟨changeId⟩, Columns := none, Row := none, Change := none, Error := none }

/-- The envelope of a `change` frame. -/
def event.ofChange (payload : List Value) : event :=
  { EOQ := none, Columns := none, Row := none, Change := some payload, Error := none }

/-- A world in which the owner never closes the subscription and every resume
request is answered with a status other than 200 and 404. -/
def World.resumeAlwaysFails : World :=
  { closedAt := fun _ => false, resume := fun _ => .invalidStatus }

/-- A subscription that has seen `EOQ` at change id 7, with `maxRetries = 2`. -/
def sampleResumable : Subscription :=
  { Subscribe.subscription "id" "hash" [WithRetryOptions 1000000000 2] with
    seenEoq := true, lastChangeId := 7 }

/-- The envelope of an `error` frame. -/
def event.ofError (msg : String) : event :=
  { EOQ := none, Columns := none, Row := none, Change := none, Error := some msg }

/-! # Theorems -/

/-! ## Row.Scan -/

theorem getElem?_set_other {D : Type} (dest : List D) (i j : Nat) (d : D) (h : j ≠ i) :
    (dest.set i d)[j]? = dest[j]? := by
  rw [List.getElem?_set]
  simp [Ne.symm h]

/-- A destination is not written when the loop never meets a non-nil value at its index. -/
theorem Row.scanFrom_untouched {D : Type} (sc : Scanners D) (vs : List Value) :
    ∀ (i : Nat) (dest : List D) (j : Nat),
      (i ≤ j → ∀ v, vs[j - i]? = some v → v = Value.null) →
      (Row.scanFrom sc vs i dest).dest[j]? = dest[j]? := by
  induction vs with
  | nil => intro i dest j _; rfl
  | cons v rest ih =>
    intro i dest j h
    have hstep : i + 1 ≤ j → ∀ u, rest[j - (i + 1)]? = some u → u = Value.null := by
      intro hij u hu
      apply h (by omega) u
      have : j - i = (j - (i + 1)) + 1 := by omega
      rw [this]
      simpa using hu
    have hne : v ≠ Value.null → j ≠ i := by
      intro hv hji
      subst hji
      exact hv (h (le_refl _) v (by simp))
    cases v with
    | null => exact ih (i + 1) dest j hstep
    | composite => exact ih (i + 1) dest j hstep
    | number f =>
      have hji := hne (by simp)
      simp only [Row.scanFrom]
      cases hd : dest[i]? with
      | none => rfl
      | some d =>
        simp only []
        rcases hs : sc.scanJSONNumber f d with ⟨d1, e⟩
        cases e with
        | some err => simp only [ScanResult.dest]; exact getElem?_set_other dest i j d1 hji
        | none =>
          simp only []
          rw [ih (i + 1) (dest.set i d1) j hstep]
          exact getElem?_set_other dest i j d1 hji
    | str f =>
      have hji := hne (by simp)
      simp only [Row.scanFrom]
      cases hd : dest[i]? with
      | none => rfl
      | some d =>
        simp only []
        rcases hs : sc.scanJSONString f d with ⟨d1, e⟩
        cases e with
        | some err => simp only [ScanResult.dest]; exact getElem?_set_other dest i j d1 hji
        | none =>
          simp only []
          rw [ih (i + 1) (dest.set i d1) j hstep]
          exact getElem?_set_other dest i j d1 hji
    | bool f =>
      have hji := hne (by simp)
      simp only [Row.scanFrom]
      cases hd : dest[i]? with
      | none => rfl
      | some d =>
        simp only []
        rcases hs : sc.scanJSONBool f d with ⟨d1, e⟩
        cases e with
        | some err => simp only [ScanResult.dest]; exact getElem?_set_other dest i j d1 hji
        | none =>
          simp only []
          rw [ih (i + 1) (dest.set i d1) j hstep]
          exact getElem?_set_other dest i j d1 hji

/-- With a destination for every index still to visit, the loop returns, and
keeps the number of destinations. -/
theorem Row.scanFrom_returns {D : Type} (sc : Scanners D) (vs : List Value) :
    ∀ (i : Nat) (dest : List D), i + vs.length ≤ dest.length →
      ∃ err d, Row.scanFrom sc vs i dest = .returned err d ∧ d.length = dest.length := by
  induction vs with
  | nil => intro i dest _; exact ⟨none, dest, rfl, rfl⟩
  | cons v rest ih =>
    intro i dest h
    have hlen : i + 1 + rest.length ≤ dest.length := by
      simp only [List.length_cons] at h; omega
    have hi : i < dest.length := by
      simp only [List.length_cons] at h; omega
    have hset : ∀ d1 : D, i + 1 + rest.length ≤ (dest.set i d1).length := by
      intro d1; rw [List.length_set]; exact hlen
    cases v with
    | null => exact ih (i + 1) dest hlen
    | composite => exact ih (i + 1) dest hlen
    | number f =>
      simp only [Row.scanFrom, List.getElem?_eq_getElem hi]
      rcases hs : sc.scanJSONNumber f dest[i] with ⟨d1, e⟩
      cases e with
      | some err => exact ⟨_, _, rfl, List.length_set ..⟩
      | none =>
        obtain ⟨err, d, hd, hl⟩ := ih (i + 1) (dest.set i d1) (hset d1)
        exact ⟨err, d, hd, by rw [hl, List.length_set]⟩
    | str f =>
      simp only [Row.scanFrom, List.getElem?_eq_getElem hi]
      rcases hs : sc.scanJSONString f dest[i] with ⟨d1, e⟩
      cases e with
      | some err => exact ⟨_, _, rfl, List.length_set ..⟩
      | none =>
        obtain ⟨err, d, hd, hl⟩ := ih (i + 1) (dest.set i d1) (hset d1)
        exact ⟨err, d, hd, by rw [hl, List.length_set]⟩
    | bool f =>
      simp only [Row.scanFrom, List.getElem?_eq_getElem hi]
      rcases hs : sc.scanJSONBool f dest[i] with ⟨d1, e⟩
      cases e with
      | some err => exact ⟨_, _, rfl, List.length_set ..⟩
      | none =>
        obtain ⟨err, d, hd, hl⟩ := ih (i + 1) (dest.set i d1) (hset d1)
        exact ⟨err, d, hd, by rw [hl, List.length_set]⟩

/-- A run of nil values is skipped: nothing is written and `nil` is returned. -/
theorem Row.scanFrom_all_null {D : Type} (sc : Scanners D) (vs : List Value) :
    ∀ (i : Nat) (dest : List D), (∀ v ∈ vs, v = Value.null) →
      Row.scanFrom sc vs i dest = .returned none dest := by
  induction vs with
  | nil => intro i dest _; rfl
  | cons v rest ih =>
    intro i dest h
    have hv : v = Value.null := h v (by simp)
    subst hv
    exact ih (i + 1) dest (fun u hu => h u (by simp [hu]))

/-- When no helper reports an error, the loop reports none either. -/
theorem Row.scanFrom_no_error {D : Type} (sc : Scanners D)
    (hn : ∀ v x, (sc.scanJSONNumber v x).2 = none)
    (hs : ∀ v x, (sc.scanJSONString v x).2 = none)
    (hb : ∀ v x, (sc.scanJSONBool v x).2 = none) (vs : List Value) :
    ∀ (i : Nat) (dest : List D), (Row.scanFrom sc vs i dest).isError = false := by
  induction vs with
  | nil => intro i dest; rfl
  | cons v rest ih =>
    intro i dest
    cases v with
    | null => exact ih (i + 1) dest
    | composite => exact ih (i + 1) dest
    | number f =>
      simp only [Row.scanFrom]
      cases hd : dest[i]? with
      | none => rfl
      | some d =>
        simp only []
        have := hn f d
        rcases hq : sc.scanJSONNumber f d with ⟨d1, e⟩
        rw [hq] at this
        simp only at this
        subst this
        exact ih _ _
    | str f =>
      simp only [Row.scanFrom]
      cases hd : dest[i]? with
      | none => rfl
      | some d =>
        simp only []
        have := hs f d
        rcases hq : sc.scanJSONString f d with ⟨d1, e⟩
        rw [hq] at this
        simp only at this
        subst this
        exact ih _ _
    | bool f =>
      simp only [Row.scanFrom]
      cases hd : dest[i]? with
      | none => rfl
      | some d =>
        simp only []
        have := hb f d
        rcases hq : sc.scanJSONBool f d with ⟨d1, e⟩
        rw [hq] at this
        simp only at this
        subst this
        exact ih _ _

/-! ## Rows.Next -/

theorem Rows.afterNext_eq (r : Rows) (h : r.currentIndex = -1) (k : Nat) :
    Rows.afterNext k r = { r with currentIndex := ((min k r.rows.length : Nat) : Int) - 1 } := by
  induction k with
  | zero =>
    cases r
    simp only [Rows.afterNext] at *
    simp [h]
  | succ k ih =>
    simp only [Rows.afterNext, ih, Rows.Next]
    by_cases hk : k < r.rows.length
    · have h1 : min k r.rows.length = k := by omega
      have h2 : min (k + 1) r.rows.length = k + 1 := by omega
      rw [h1, h2]
      have : ¬ ((k : Int) - 1 = (r.rows.length : Int) - 1) := by omega
      simp only [this, if_false]
      congr 1
      omega
    · have h1 : min k r.rows.length = r.rows.length := by omega
      have h2 : min (k + 1) r.rows.length = r.rows.length := by omega
      rw [h1, h2]
      simp

theorem Rows.next_at (r : Rows) (h : r.currentIndex = -1) (k : Nat) :
    Rows.Next (Rows.afterNext k r) =
      if k < r.rows.length then (true, { r with currentIndex := (k : Int) })
      else (false, Rows.afterNext k r) := by
  rw [Rows.afterNext_eq r h k]
  simp only [Rows.Next]
  by_cases hk : k < r.rows.length
  · have h1 : min k r.rows.length = k := by omega
    have : ¬ ((k : Int) - 1 = (r.rows.length : Int) - 1) := by omega
    simp only [h1, this, if_false, hk, if_true]
    congr 2
    omega
  · have h1 : min k r.rows.length = r.rows.length := by omega
    simp [h1, hk]

theorem Rows.nextResults_eq (r : Rows) (h : r.currentIndex = -1) (m : Nat) :
    Rows.nextResults m r =
      List.replicate (min m r.rows.length) true ++ List.replicate (m - r.rows.length) false := by
  induction m with
  | zero => simp [Rows.nextResults]
  | succ m ih =>
    simp only [Rows.nextResults, ih, Rows.next_at r h m]
    by_cases hm : m < r.rows.length
    · have h1 : min m r.rows.length = m := by omega
      have h2 : min (m + 1) r.rows.length = m + 1 := by omega
      have h3 : m - r.rows.length = 0 := by omega
      have h4 : m + 1 - r.rows.length = 0 := by omega
      simp [h1, h2, h3, h4, hm, List.replicate_succ']
    · have h1 : min m r.rows.length = r.rows.length := by omega
      have h2 : min (m + 1) r.rows.length = r.rows.length := by omega
      have h4 : m + 1 - r.rows.length = (m - r.rows.length) + 1 := by omega
      simp [h1, h2, h4, hm, List.replicate_succ']

/-! ## Statements about rows.go -/

/-- C5, as the code has it: with at least as many destinations as values,
`Row.Scan` returns without indexing out of range, keeps the surplus
destinations as they were, and returns `nil` when no coercion helper reports
an error; the difference in count is not reported. -/
theorem Row.Scan_enough_destinations {D : Type} (sc : Scanners D) (r : Row) (dest : List D)
    (h : r.values.length ≤ dest.length) :
    ∃ err d, Row.Scan sc r dest = .returned err d ∧ d.length = dest.length ∧
      (∀ j, r.values.length ≤ j → d[j]? = dest[j]?) ∧
      ((∀ v x, (sc.scanJSONNumber v x).2 = none) → (∀ v x, (sc.scanJSONString v x).2 = none) →
        (∀ v x, (sc.scanJSONBool v x).2 = none) → err = none) := by
  obtain ⟨err, d, hret, hlen⟩ := Row.scanFrom_returns sc r.values 0 dest (by omega)
  refine ⟨err, d, hret, hlen, ?_, ?_⟩
  · intro j hj
    have hu := Row.scanFrom_untouched sc r.values 0 dest j (by
      intro _ v hv
      rw [List.getElem?_eq_none (by omega)] at hv
      cases hv)
    rw [hret] at hu
    exact hu
  · intro hn hs hb
    have he := Row.scanFrom_no_error sc hn hs hb r.values 0 dest
    rw [hret] at he
    cases err with
    | none => rfl
    | some e => simp [ScanResult.isError] at he

/-- C5 at a concrete input: a row of one nil value scanned into two
destinations. -/
theorem Row.Scan_enough_destinations_witness :
    (⟨["a"], [.null]⟩ : Row).values.length ≤ [5, 6].length ∧
    ∃ err d, Row.Scan sampleScanners ⟨["a"], [.null]⟩ [5, 6] = .returned err d ∧
      d.length = [5, 6].length ∧
      (∀ j, (⟨["a"], [.null]⟩ : Row).values.length ≤ j → d[j]? = [5, 6][j]?) ∧
      ((∀ v x, (sampleScanners.scanJSONNumber v x).2 = none) →
        (∀ v x, (sampleScanners.scanJSONString v x).2 = none) →
        (∀ v x, (sampleScanners.scanJSONBool v x).2 = none) → err = none) :=
  ⟨by decide, Row.Scan_enough_destinations sampleScanners ⟨["a"], [.null]⟩ [5, 6] (by decide)⟩

/-- C5 refuted as stated: whatever the helpers do, an empty row scanned into
one destination, and a row of one nil value scanned into no destination,
return `nil` although the counts differ; a row of one number scanned into no
destination indexes `dest[0]` out of range. -/
theorem Row.Scan_count_mismatch_not_reported :
    ((⟨[], []⟩ : Row).values.length ≠ [7].length ∧
      ∀ sc : Scanners Nat, Row.Scan sc ⟨[], []⟩ [7] = .returned none [7]) ∧
    ((⟨[], [.null]⟩ : Row).values.length ≠ ([] : List Nat).length ∧
      ∀ sc : Scanners Nat, Row.Scan sc ⟨[], [.null]⟩ [] = .returned none []) ∧
    ((⟨[], [.number ⟨0⟩]⟩ : Row).values.length ≠ ([] : List Nat).length ∧
      ∀ sc : Scanners Nat, Row.Scan sc ⟨[], [.number ⟨0⟩]⟩ [] = .indexOutOfRange []) :=
  ⟨⟨by decide, fun _ => rfl⟩, ⟨by decide, fun _ => rfl⟩, ⟨by decide, fun _ => rfl⟩⟩

/-- C6: with at least as many destinations as values, every destination whose
positional value is nil holds after `Row.Scan` what it held before, whether
the call returns `nil` or an error; a row of nil values only returns `nil` and
leaves every destination as it was. -/
theorem Row.Scan_nil_source_untouched {D : Type} (sc : Scanners D) (r : Row) (dest : List D)
    (h : r.values.length ≤ dest.length) :
    (∃ err d, Row.Scan sc r dest = .returned err d ∧
      ∀ i : Nat, r.values[i]? = some Value.null → d[i]? = dest[i]?) ∧
    ((∀ v ∈ r.values, v = Value.null) → Row.Scan sc r dest = .returned none dest) := by
  constructor
  · obtain ⟨err, d, hret, _⟩ := Row.scanFrom_returns sc r.values 0 dest (by omega)
    refine ⟨err, d, hret, ?_⟩
    intro i hi
    have hu := Row.scanFrom_untouched sc r.values 0 dest i (by
      intro _ v hv
      rw [Nat.sub_zero, hi] at hv
      exact (Option.some.inj hv).symm)
    rw [hret] at hu
    exact hu
  · intro hall
    exact Row.scanFrom_all_null sc r.values 0 dest hall

/-- C6 at a concrete input: the row `[nil, true]` scanned into the
destinations `[5, 6]`. -/
theorem Row.Scan_nil_source_untouched_witness :
    (⟨["a", "b"], [.null, .bool true]⟩ : Row).values.length ≤ [5, 6].length ∧
    ((∃ err d, Row.Scan sampleScanners ⟨["a", "b"], [.null, .bool true]⟩ [5, 6] = .returned err d ∧
      ∀ i : Nat, (⟨["a", "b"], [.null, .bool true]⟩ : Row).values[i]? = some Value.null →
        d[i]? = [5, 6][i]?) ∧
    ((∀ v ∈ (⟨["a", "b"], [.null, .bool true]⟩ : Row).values, v = Value.null) →
      Row.Scan sampleScanners ⟨["a", "b"], [.null, .bool true]⟩ [5, 6] = .returned none [5, 6])) :=
  ⟨by decide,
    Row.Scan_nil_source_untouched sampleScanners ⟨["a", "b"], [.null, .bool true]⟩ [5, 6]
      (by decide)⟩

/-- C7: on a cursor over `n` buffered rows positioned before the first row,
`Rows.Scan` returns an error; call number `k + 1` of `Rows.Next` returns true
and leaves the cursor on row `k` when `k < n`, an index at which `Rows.Scan`
reads that row; every call from number `n + 1` on returns false and leaves the
cursor where it was; so the first `m` calls return true `min m n` times, all
of them before the first false. -/
theorem Rows.Next_walks_the_rows {D : Type} (sc : Scanners D) (r : Rows) (dest : List D)
    (h : r.currentIndex = -1) :
    Rows.Scan sc r dest = .returned (some .scanBeforeNext) dest ∧
    (∀ k, k < r.rows.length →
      Rows.Next (Rows.afterNext k r) = (true, { r with currentIndex := (k : Int) }) ∧
      ∃ row, r.rows[k]? = some row ∧
        Rows.Scan sc { r with currentIndex := (k : Int) } dest = Row.Scan sc row dest) ∧
    (∀ k, r.rows.length ≤ k →
      Rows.Next (Rows.afterNext k r) = (false, Rows.afterNext k r)) ∧
    (∀ m, Rows.nextResults m r =
      List.replicate (min m r.rows.length) true ++ List.replicate (m - r.rows.length) false) := by
  refine ⟨?_, ?_, ?_, Rows.nextResults_eq r h⟩
  · simp [Rows.Scan, h]
  · intro k hk
    refine ⟨?_, r.rows[k], List.getElem?_eq_getElem hk, ?_⟩
    · rw [Rows.next_at r h k]; simp [hk]
    · have h1 : ¬ ((k : Int) = -1) := by omega
      have h2 : ¬ ((k : Int) < 0) := by omega
      simp [Rows.Scan, h1, h2, List.getElem?_eq_getElem hk]
  · intro k hk
    rw [Rows.next_at r h k]
    have : ¬ k < r.rows.length := by omega
    simp [this]

/-- C7 at a concrete input: a cursor over two rows. -/
theorem Rows.Next_walks_the_rows_witness :
    sampleRows.currentIndex = -1 ∧
    Rows.Next (Rows.afterNext 1 sampleRows) = (true, { sampleRows with currentIndex := 1 }) ∧
    Rows.Next (Rows.afterNext 2 sampleRows) = (false, Rows.afterNext 2 sampleRows) ∧
    Rows.nextResults 4 sampleRows = [true, true, false, false] :=
  have hw := Rows.Next_walks_the_rows sampleScanners sampleRows [] rfl
  ⟨rfl, (hw.2.1 1 (by decide)).1, hw.2.2.1 2 (by decide), hw.2.2.2 4⟩

/-! ## readEvent and readNext -/

theorem Subscription.readNext_error (rd : Readers) (s s1 : Subscription) (f : Frame) (err : Err)
    (h : Subscription.readNext rd s f = (.error err, s1)) : s1 = s := by
  unfold Subscription.readNext at h
  split at h
  · cases h; rfl
  · split at h
    · cases h; rfl
    · split at h
      · cases h
      · cases h
      · cases h
      · split at h
        · cases h; rfl
        · cases h
      · cases h

theorem Subscription.readNext_ok (rd : Readers) (s s1 : Subscription) (f : Frame) (e : Event)
    (h : Subscription.readNext rd s f = (.ok e, s1)) :
    s1.lastChangeId = lastAcknowledged s.lastChangeId [e] ∧
      ∀ c, e = .change c → c.ChangeId = (s.lastChangeId + 1) % 2 ^ 64 := by
  unfold Subscription.readNext at h
  split at h
  · cases h
  · split at h
    · cases h
    · split at h
      · cases h; exact ⟨rfl, fun c hc => by cases hc⟩
      · cases h; exact ⟨rfl, fun c hc => by cases hc⟩
      · cases h; exact ⟨rfl, fun c hc => by cases hc⟩
      · rename_i c0
        split at h
        · cases h
        · rename_i hc0
          cases h
          refine ⟨rfl, fun c hc => ?_⟩
          cases hc
          exact not_not.mp hc0
      · cases h; exact ⟨rfl, fun c hc => by cases hc⟩

theorem lastAcknowledged_cons (start : Nat) (e : Event) (es : List Event) :
    lastAcknowledged start (e :: es) = lastAcknowledged (lastAcknowledged start [e]) es := by
  cases e <;> rfl

theorem lastAcknowledged_append (start : Nat) (xs ys : List Event) :
    lastAcknowledged start (xs ++ ys) = lastAcknowledged (lastAcknowledged start xs) ys := by
  induction xs generalizing start with
  | nil => rfl
  | cons x xs ih =>
    rw [List.cons_append, lastAcknowledged_cons, ih, lastAcknowledged_cons start x xs]

theorem lastAcknowledged_still (start : Nat) (es : List Event)
    (h : ∀ e ∈ es, e.movesChangeId = false) : lastAcknowledged start es = start := by
  induction es with
  | nil => rfl
  | cons e es ih =>
    have he := h e (by simp)
    have := ih (fun x hx => h x (by simp [hx]))
    cases e with
    | change c => simp [Event.movesChangeId] at he
    | eoq q => simp [Event.movesChangeId] at he
    | columns c => simpa [lastAcknowledged] using this
    | row r => simpa [lastAcknowledged] using this
    | error x => simpa [lastAcknowledged] using this

theorem Subscription.returnedEvents_chain (rd : Readers) (frames : List Frame) :
    ∀ (s : Subscription) (pre : List Event) (c : Change) (post : List Event),
      Subscription.returnedEvents rd s frames = pre ++ Event.change c :: post →
      c.ChangeId = (lastAcknowledged s.lastChangeId pre + 1) % 2 ^ 64 := by
  induction frames with
  | nil =>
    intro s pre c post h
    simp [Subscription.returnedEvents] at h
  | cons f fs ih =>
    intro s pre c post h
    rcases hr : Subscription.readNext rd s f with ⟨r, s1⟩
    cases r with
    | error err =>
      have hs := Subscription.readNext_error rd s s1 f err hr
      subst hs
      simp only [Subscription.returnedEvents, hr] at h
      exact ih s1 pre c post h
    | ok e =>
      obtain ⟨hlast, hchg⟩ := Subscription.readNext_ok rd s s1 f e hr
      simp only [Subscription.returnedEvents, hr] at h
      cases pre with
      | nil =>
        simp only [List.nil_append, List.cons.injEq] at h
        simpa [lastAcknowledged] using hchg c h.1
      | cons p pre1 =>
        simp only [List.cons_append, List.cons.injEq] at h
        obtain ⟨hp, hrest⟩ := h
        subst hp
        rw [lastAcknowledged_cons, ← hlast]
        exact ih s1 pre1 c post hrest

/-- C2, as the code has it: every `Change` that `readNext` returns carries the
id following, modulo `2^64`, the id of the last `Change` or `EOQ` returned
before it (the initial `lastChangeId` when there is none); so two returned
changes with no `EOQ` and no `Change` returned between them have ids that
differ by exactly one. -/
theorem Subscription.readNext_change_ids (rd : Readers) (s : Subscription) (frames : List Frame) :
    (∀ pre c post, Subscription.returnedEvents rd s frames = pre ++ Event.change c :: post →
      c.ChangeId = (lastAcknowledged s.lastChangeId pre + 1) % 2 ^ 64) ∧
    (∀ pre c1 mid c2 post,
      Subscription.returnedEvents rd s frames
        = pre ++ Event.change c1 :: (mid ++ Event.change c2 :: post) →
      (∀ e ∈ mid, e.movesChangeId = false) →
      c2.ChangeId = (c1.ChangeId + 1) % 2 ^ 64) := by
  refine ⟨Subscription.returnedEvents_chain rd frames s, ?_⟩
  intro pre c1 mid c2 post h hmid
  have h1 : Subscription.returnedEvents rd s frames
      = (pre ++ Event.change c1 :: mid) ++ Event.change c2 :: post := by
    rw [h]; simp
  have := Subscription.returnedEvents_chain rd frames s _ c2 post h1
  rw [this, lastAcknowledged_append, lastAcknowledged_cons, lastAcknowledged_still _ mid hmid]
  rfl

/-- C2 refuted as stated: on the frames change, eoq, change of a new
subscription, where `readChange` decodes the first payload to id 1 and the
second to id 11 and the `EOQ` carries id 10, `readNext` returns all three
events; the second `Change` has id 11, the previously returned one id 1. -/
theorem Subscription.readNext_change_after_eoq :
    (∀ (rd : Readers) (p1 p2 : List Value),
      rd.readChange p1 = .ok ⟨1, []⟩ → rd.readChange p2 = .ok ⟨11, []⟩ →
      Subscription.returnedEvents rd (Subscribe.subscription "id" "hash" [])
        [.line (.ok (event.ofChange p1)), .line (.ok (event.ofEOQ 10)),
          .line (.ok (event.ofChange p2))]
        = [.change ⟨1, []⟩, .eoq ⟨10⟩, .change ⟨11, []⟩]) ∧
    (Subscribe.subscription "id" "hash" []).lastChangeId = 0 ∧ (11 : Nat) ≠ 1 + 1 := by
  refine ⟨?_, rfl, by decide⟩
  intro rd p1 p2 h1 h2
  simp [Subscription.returnedEvents, Subscription.readNext, readEvent, event.ofChange,
    event.ofEOQ, h1, h2, Subscribe.subscription]

/-- C3, as the code has it: `readEvent` returns `ErrUnknownEvent` when none of
the five fields is populated; otherwise it decodes the first populated field
in the order columns, row, change, eoq, error and ignores the others, so an
envelope with several populated fields is not rejected; it returns an event
only when at least one field is populated. -/
theorem readEvent_first_populated_field (rd : Readers) (e : event) :
    (e.populated = 0 → readEvent rd (.ok e) = .error .errUnknownEvent) ∧
    (∀ c, e.Columns = some c → readEvent rd (.ok e) = .ok (.columns c)) ∧
    (∀ r, e.Columns = none → e.Row = some r →
      readEvent rd (.ok e) = (rd.readRow r).map Event.row) ∧
    (∀ c, e.Columns = none → e.Row = none → e.Change = some c →
      readEvent rd (.ok e) = (rd.readChange c).map Event.change) ∧
    (∀ q, e.Columns = none → e.Row = none → e.Change = none → e.EOQ = some q →
      readEvent rd (.ok e) = .ok (.eoq q)) ∧
    (∀ msg, e.Columns = none → e.Row = none → e.Change = none → e.EOQ = none →
      e.Error = some msg → readEvent rd (.ok e) = .ok (.error (.remote msg))) ∧
    (∀ ev, readEvent rd (.ok e) = .ok ev → 1 ≤ e.populated) := by
  obtain ⟨q, c, r, ch, er⟩ := e
  refine ⟨?_, ?_, ?_, ?_, ?_, ?_, ?_⟩
  · intro h
    cases q <;> cases c <;> cases r <;> cases ch <;> cases er <;>
      simp [event.populated] at h
    rfl
  · intro c0 h; simp only at h; subst h; rfl
  · intro r0 h1 h2; simp only at h1 h2; subst h1 h2
    simp only [readEvent]
    cases rd.readRow r0 <;> rfl
  · intro c0 h1 h2 h3; simp only at h1 h2 h3; subst h1 h2 h3
    simp only [readEvent]
    cases rd.readChange c0 <;> rfl
  · intro q0 h1 h2 h3 h4; simp only at h1 h2 h3 h4; subst h1 h2 h3 h4; rfl
  · intro m h1 h2 h3 h4 h5; simp only at h1 h2 h3 h4 h5; subst h1 h2 h3 h4 h5; rfl
  · intro ev h
    cases q <;> cases c <;> cases r <;> cases ch <;> cases er <;>
      first
        | (simp [readEvent] at h; done)
        | (simp [event.populated])

/-- C3 refuted as stated: an envelope with both `columns` and `eoq` populated
is decoded to the `Columns` event, whatever the helpers do. -/
theorem readEvent_two_fields_populated :
    (⟨some ⟨1⟩, some ["a"], none, none, none⟩ : event).populated = 2 ∧
    ∀ rd : Readers,
      readEvent rd (.ok ⟨some ⟨1⟩, some ["a"], none, none, none⟩) = .ok (.columns ["a"]) :=
  ⟨by decide, fun _ => rfl⟩

/-! ## The pump -/

theorem Subscription.recoverConn_fails (c : CorroClient) (w : World) (k : Clock)
    (s : Subscription) (hseen : s.seenEoq = true)
    (hfail : w.resume k.resumes ≠ .ok ∧ w.resume k.resumes ≠ .notFound) :
    ∃ err, err ≠ Err.errUnrecoverableSub ∧
      Subscription.recoverConn c w k s
        = ([.getSub (c.getSub s.id true s.lastChangeId)], some err,
            { k with resumes := k.resumes + 1 }) := by
  unfold Subscription.recoverConn
  simp only [hseen, Bool.not_true, Bool.false_eq_true, if_false]
  cases hr : w.resume k.resumes with
  | ok => exact absurd hr hfail.1
  | notFound => exact absurd hr hfail.2
  | invalidStatus => exact ⟨_, by decide, rfl⟩
  | transport msg => exact ⟨_, by simp, rfl⟩

theorem Subscription.retryLoop_all_fail (c : CorroClient) (w : World)
    (hclosed : ∀ k, w.closedAt k = false)
    (hfail : ∀ k, w.resume k ≠ .ok ∧ w.resume k ≠ .notFound) :
    ∀ (m fuel : Nat) (k : Clock) (s : Subscription),
      s.seenEoq = true → s.erroredClosed = false → s.retries + (m : Int) = s.maxRetries →
      m ≤ fuel →
      (Subscription.retryLoop c w fuel k s).trace
          = (List.replicate m
              [Action.getSub (c.getSub s.id true s.lastChangeId), Action.sleep]).flatten
            ++ [.setErr .errMaxRetryExceeded, .closeErrored (some .errMaxRetryExceeded)] ∧
        (Subscription.retryLoop c w fuel k s).exit = .returned ∧
        (Subscription.retryLoop c w fuel k s).sub.err = some .errMaxRetryExceeded ∧
        (Subscription.retryLoop c w fuel k s).sub.erroredClosed = true := by
  intro m
  induction m with
  | zero =>
    intro fuel k s _ hopen hm _
    have hlt : ¬ s.retries < s.maxRetries := by
      simp only [Nat.cast_zero, add_zero] at hm; omega
    unfold Subscription.retryLoop
    simp [hlt, closeErroredThen, hopen, LoopResult.after]
  | succ m ih =>
    intro fuel k s hseen hopen hm hfuel
    have hlt : s.retries < s.maxRetries := by
      push_cast at hm; omega
    obtain ⟨fuel1, rfl⟩ : ∃ f, fuel = f + 1 := ⟨fuel - 1, by omega⟩
    obtain ⟨err, herr, hrec⟩ := Subscription.recoverConn_fails c w
      { k with checks := k.checks + 1 } { s with retries := s.retries + 1 } hseen (hfail _)
    have hih := ih fuel1 { checks := k.checks + 1, resumes := k.resumes + 1 }
      { s with retries := s.retries + 1 } hseen hopen (by push_cast at hm ⊢; omega)
      (by omega)
    unfold Subscription.retryLoop
    simp only [hlt, if_true, hclosed, Bool.false_eq_true, if_false, hrec, herr]
    simp only [LoopResult.after]
    refine ⟨?_, hih.2.1, hih.2.2.1, hih.2.2.2⟩
    rw [hih.1]
    simp [List.replicate_succ]

theorem closeErroredThen_exit (s : Subscription) (k kr : Clock) :
    (closeErroredThen s (fun s3 => { trace := [], exit := .returned, clock := kr, sub := s3 })
      k).exit ≠ .outOfFuel := by
  unfold closeErroredThen
  split <;> simp [LoopResult.after]

/-- The fuel handed to the retry loop by `mainLoop` is never used up. -/
theorem Subscription.retryLoop_fuel (c : CorroClient) (w : World) :
    ∀ (fuel : Nat) (k : Clock) (s : Subscription),
      (s.maxRetries - s.retries).toNat ≤ fuel →
      (Subscription.retryLoop c w fuel k s).exit ≠ .outOfFuel := by
  intro fuel
  induction fuel with
  | zero =>
    intro k s h
    have hlt : ¬ s.retries < s.maxRetries := by omega
    unfold Subscription.retryLoop
    simp only [hlt, if_false, LoopResult.after]
    exact closeErroredThen_exit _ _ _
  | succ fuel ih =>
    intro k s h
    unfold Subscription.retryLoop
    by_cases hlt : s.retries < s.maxRetries
    · simp only [hlt, if_true]
      split
      · simp
      · split
        · simp
        · split
          · simp only [LoopResult.after]
            exact closeErroredThen_exit _ _ _
          · simp only [LoopResult.after]
            exact ih _ _ (by simp only; omega)
    · simp only [hlt, if_false, LoopResult.after]
      exact closeErroredThen_exit _ _ _

/-- The pump never stops for lack of fuel: on every list of frames it has
returned, crashed, or waits for the next frame. -/
theorem Subscription.run_total (rd : Readers) (c : CorroClient) (w : World) (s : Subscription)
    (frames : List Frame) : (Subscription.run rd c w s frames).halt ≠ .outOfFuel := by
  have main : ∀ (frames : List Frame) (k : Clock) (s : Subscription),
      (Subscription.mainLoop rd c w frames k s).halt ≠ .outOfFuel := by
    intro frames
    induction frames with
    | nil => intro k s; simp [Subscription.mainLoop]
    | cons f fs ih =>
      intro k s
      rcases hr : Subscription.readNext rd s f with ⟨r, s1⟩
      unfold Subscription.mainLoop
      simp only [hr]
      cases r with
      | ok e =>
        cases e with
        | error x => simp only []; split <;> simp
        | columns x => simp only [Outcome.after]; exact ih _ _
        | row x => simp only [Outcome.after]; exact ih _ _
        | eoq x => simp only [Outcome.after]; exact ih _ _
        | change x => simp only [Outcome.after]; exact ih _ _
      | error err =>
        simp only []
        by_cases hc : w.closedAt k.checks = true
        · simp [hc]
        · simp only [hc, if_false]
          by_cases he : err = .eof ∨ err = .errClosedPipe
          · simp only [he, if_true]
            have hf := Subscription.retryLoop_fuel c w (s1.maxRetries - s1.retries).toNat
              { k with checks := k.checks + 1 } s1 (le_refl _)
            cases hx : (Subscription.retryLoop c w (s1.maxRetries - s1.retries).toNat
              { k with checks := k.checks + 1 } s1).exit with
            | continueMain => simp only [Outcome.after]; exact ih _ _
            | returned => simp
            | crashed => simp
            | outOfFuel => exact absurd hx hf
          · simp only [he, if_false]
            cases hcl : s1.erroredClosed with
            | true => simp
            | false => simp only [Outcome.after, Bool.false_eq_true, if_false]; exact ih _ _
  have hm := main frames { checks := 0, resumes := 0 } s
  unfold Subscription.run
  simp only []
  split
  · rename_i hx; rw [hx]; simp
  · rename_i hx; exact absurd hx hm
  · simp only []; exact hm

/-! ## Statements about the pump -/

/-- Retry exhaustion on a pump that has not signalled `errored` before: when
the read fails with `io.EOF` or `io.ErrClosedPipe` on a subscription that has
seen `EOQ`, has its retry counter at 0 and `maxRetries = n`, is never closed
by its owner, and every resume fails with an error other than not-found, the
pump closes the body,
issues exactly `n` resume requests for `lastChangeId`, each followed by the
backoff sleep, then records `ErrMaxRetryExceeded`, closes `errored` with the
slot set, and returns, leaving later frames unread. -/
theorem Subscription.run_retries_exhausted (rd : Readers) (c : CorroClient) (w : World)
    (s : Subscription) (err : Err) (rest : List Frame) (n : Nat)
    (herr : err = .eof ∨ err = .errClosedPipe)
    (hseen : s.seenEoq = true) (hopen : s.erroredClosed = false)
    (hretries : s.retries = 0) (hmax : s.maxRetries = (n : Int))
    (hclosed : ∀ k, w.closedAt k = false)
    (hfail : ∀ k, w.resume k ≠ .ok ∧ w.resume k ≠ .notFound) :
    (Subscription.run rd c w s (.readErr err :: rest)).trace
        = [.read (.readErr err), .closeBody]
          ++ (List.replicate n
              [Action.getSub (c.getSub s.id true s.lastChangeId), Action.sleep]).flatten
          ++ [.setErr .errMaxRetryExceeded, .closeErrored (some .errMaxRetryExceeded),
              .closeBody] ∧
      countGetSub (Subscription.run rd c w s (.readErr err :: rest)).trace = n ∧
      (Subscription.run rd c w s (.readErr err :: rest)).halt = .returned ∧
      (Subscription.run rd c w s (.readErr err :: rest)).sub.err
        = some .errMaxRetryExceeded := by
  obtain ⟨htr, hex, herr1, _⟩ := Subscription.retryLoop_all_fail c w hclosed hfail n
    (s.maxRetries - s.retries).toNat { checks := 1, resumes := 0 } s hseen hopen
    (by rw [hretries, hmax]; simp) (by rw [hretries, hmax]; simp)
  have hcount : ∀ (m : Nat) (a : Request) (tail : List Action),
      countGetSub ((List.replicate m [Action.getSub a, Action.sleep]).flatten ++ tail)
        = m + countGetSub tail := by
    intro m a tail
    induction m with
    | zero => simp
    | succ m ih => simp [List.replicate_succ, countGetSub, ih]; omega
  have hmain : Subscription.mainLoop rd c w (.readErr err :: rest) { checks := 0, resumes := 0 } s
      = { trace := [.read (.readErr err), .closeBody]
            ++ (Subscription.retryLoop c w (s.maxRetries - s.retries).toNat
                  { checks := 1, resumes := 0 } s).trace,
          halt := .returned,
          sub := (Subscription.retryLoop c w (s.maxRetries - s.retries).toNat
                  { checks := 1, resumes := 0 } s).sub } := by
    unfold Subscription.mainLoop
    simp only [Subscription.readNext, hclosed, Bool.false_eq_true, if_false, herr, if_true,
      Nat.zero_add, hex]
  have hrun : (Subscription.run rd c w s (.readErr err :: rest))
      = { trace := ([.read (.readErr err), .closeBody]
            ++ (Subscription.retryLoop c w (s.maxRetries - s.retries).toNat
                  { checks := 1, resumes := 0 } s).trace) ++ [.closeBody],
          halt := .returned,
          sub := (Subscription.retryLoop c w (s.maxRetries - s.retries).toNat
                  { checks := 1, resumes := 0 } s).sub } := by
    unfold Subscription.run
    simp only [hmain]
  have htrace : (Subscription.run rd c w s (.readErr err :: rest)).trace
      = .read (.readErr err) :: .closeBody ::
          ((List.replicate n
              [Action.getSub (c.getSub s.id true s.lastChangeId), Action.sleep]).flatten
          ++ [.setErr .errMaxRetryExceeded, .closeErrored (some .errMaxRetryExceeded),
              .closeBody]) := by
    rw [hrun]
    simp only [htr]
    simp
  refine ⟨by rw [htrace]; simp, ?_, by rw [hrun], by rw [hrun]; exact herr1⟩
  rw [htrace]
  simp only [countGetSub]
  rw [hcount]
  simp [countGetSub]

/-- Retry exhaustion at a concrete input: `maxRetries = 2`, `EOQ` seen at
change id 7, `errored` not signalled, the stream ends with `io.EOF` and every
resume is answered with an invalid status. -/
theorem Subscription.run_retries_exhausted_witness :
    (sampleResumable.seenEoq = true ∧ sampleResumable.erroredClosed = false ∧
      sampleResumable.retries = 0 ∧ sampleResumable.maxRetries = ((2 : Nat) : Int)) ∧
    ∀ (rd : Readers) (c : CorroClient),
      countGetSub (Subscription.run rd c World.resumeAlwaysFails sampleResumable
        [.readErr .eof]).trace = 2 ∧
      (Subscription.run rd c World.resumeAlwaysFails sampleResumable [.readErr .eof]).halt
        = .returned ∧
      (Subscription.run rd c World.resumeAlwaysFails sampleResumable [.readErr .eof]).sub.err
        = some .errMaxRetryExceeded :=
  ⟨⟨rfl, rfl, rfl, rfl⟩, fun rd c =>
    (Subscription.run_retries_exhausted rd c World.resumeAlwaysFails sampleResumable
      .eof [] 2 (Or.inl rfl) rfl rfl rfl rfl (fun _ => rfl)
      (fun _ => ⟨by simp [World.resumeAlwaysFails], by simp [World.resumeAlwaysFails]⟩)).2⟩

/-- C4 evaluated at the failing input: a new subscription with
`maxRetries = 2` reads a malformed line, an `eoq` line with change id 7 and
then `io.EOF`, while every resume is answered with an invalid status.  When
the stream ends `EOQ` has been seen, the retry counter is 0 and the owner has
not closed the subscription, but `errored` is already closed, the pump having
gone on after the malformed line.  It issues the two resume requests and
records `ErrMaxRetryExceeded`, then reaches `close(s.errored)` on the closed
channel and panics instead of signalling `errored` and returning. -/
theorem Subscription.run_retries_exhausted_after_fatal_error (rd : Readers) (c : CorroClient) :
    ((Subscription.run rd c World.resumeAlwaysFails
        (Subscribe.subscription "id" "hash" [WithRetryOptions 1000000000 2])
        [.line (.error (.foreign "unexpected end of JSON input")),
          .line (.ok (event.ofEOQ 7))]).halt = .waiting ∧
      (Subscription.run rd c World.resumeAlwaysFails
        (Subscribe.subscription "id" "hash" [WithRetryOptions 1000000000 2])
        [.line (.error (.foreign "unexpected end of JSON input")),
          .line (.ok (event.ofEOQ 7))]).sub
        = { id := "id", hash := "hash", err := some .errUnrecoverableSub, erroredClosed := true,
            lastChangeId := 7, seenEoq := true, columns := [], maxRetries := 2,
            retries := 0 }) ∧
    (Subscription.run rd c World.resumeAlwaysFails
        (Subscribe.subscription "id" "hash" [WithRetryOptions 1000000000 2])
        [.line (.error (.foreign "unexpected end of JSON input")),
          .line (.ok (event.ofEOQ 7)), .readErr .eof]).trace
      = [.read (.line (.error (.foreign "unexpected end of JSON input"))),
          .setErr .errUnrecoverableSub, .closeErrored (some .errUnrecoverableSub),
          .read (.line (.ok (event.ofEOQ 7))), .push (.eoq ⟨7⟩),
          .read (.readErr .eof), .closeBody,
          .getSub (c.getSub "id" true 7), .sleep,
          .getSub (c.getSub "id" true 7), .sleep,
          .setErr .errMaxRetryExceeded, .closeBody] ∧
    (Subscription.run rd c World.resumeAlwaysFails
        (Subscribe.subscription "id" "hash" [WithRetryOptions 1000000000 2])
        [.line (.error (.foreign "unexpected end of JSON input")),
          .line (.ok (event.ofEOQ 7)), .readErr .eof]).halt = .crashed :=
  by
  refine ⟨⟨rfl, rfl⟩, ?_, ?_⟩
  · simp [Subscription.run, Subscription.mainLoop, Subscription.readNext, readEvent,
      Subscription.retryLoop, Subscription.recoverConn, closeErroredThen, LoopResult.after,
      Outcome.after, World.resumeAlwaysFails, Subscribe.subscription, Subscribe.options,
      WithRetryOptions, event.ofEOQ]
  · simp [Subscription.run, Subscription.mainLoop, Subscription.readNext, readEvent,
      Subscription.retryLoop, Subscription.recoverConn, closeErroredThen, LoopResult.after,
      Outcome.after, World.resumeAlwaysFails, Subscribe.subscription, Subscribe.options,
      WithRetryOptions, event.ofEOQ]

/-- C8, as the code has it: when the read fails with `io.EOF` or
`io.ErrClosedPipe` on a subscription that has not seen `EOQ`, has not
signalled `errored` and is not closed by its owner, the pump issues no resume
request; if the retry counter is below `maxRetries` it records
`ErrUnrecoverableSub`, otherwise (`maxRetries` is 0 or negative, the counter
being 0) the loop body is not entered and it records `ErrMaxRetryExceeded`;
either way it closes `errored` with the slot set and returns. -/
theorem Subscription.run_eof_before_eoq (rd : Readers) (c : CorroClient) (w : World)
    (s : Subscription) (err : Err) (rest : List Frame)
    (herr : err = .eof ∨ err = .errClosedPipe)
    (hseen : s.seenEoq = false) (hopen : s.erroredClosed = false)
    (hclosed : ∀ k, w.closedAt k = false) :
    (Subscription.run rd c w s (.readErr err :: rest)).trace
        = [.read (.readErr err), .closeBody,
            .setErr (if s.retries < s.maxRetries then .errUnrecoverableSub
              else .errMaxRetryExceeded),
            .closeErrored (some (if s.retries < s.maxRetries then .errUnrecoverableSub
              else .errMaxRetryExceeded)),
            .closeBody] ∧
      countGetSub (Subscription.run rd c w s (.readErr err :: rest)).trace = 0 ∧
      (Subscription.run rd c w s (.readErr err :: rest)).halt = .returned := by
  by_cases hlt : s.retries < s.maxRetries
  · obtain ⟨fuel, hfuel⟩ : ∃ f, (s.maxRetries - s.retries).toNat = f + 1 :=
      ⟨(s.maxRetries - s.retries).toNat - 1, by omega⟩
    have hloop : Subscription.retryLoop c w (fuel + 1) { checks := 1, resumes := 0 } s
        = { trace := [.setErr .errUnrecoverableSub, .closeErrored (some .errUnrecoverableSub)],
            exit := .returned, clock := { checks := 2, resumes := 0 },
            sub := { s with retries := s.retries + 1, err := some .errUnrecoverableSub,
                            erroredClosed := true } } := by
      unfold Subscription.retryLoop
      simp [hlt, hclosed, Subscription.recoverConn, hseen, closeErroredThen, hopen,
        LoopResult.after]
    unfold Subscription.run Subscription.mainLoop
    simp only [Subscription.readNext, hclosed, Bool.false_eq_true, if_false, herr, if_true,
      Nat.zero_add, hfuel, hloop, hlt]
    simp [countGetSub]
  · have hloop : ∀ fuel, Subscription.retryLoop c w fuel { checks := 1, resumes := 0 } s
        = { trace := [.setErr .errMaxRetryExceeded, .closeErrored (some .errMaxRetryExceeded)],
            exit := .returned, clock := { checks := 1, resumes := 0 },
            sub := { s with err := some .errMaxRetryExceeded, erroredClosed := true } } := by
      intro fuel
      unfold Subscription.retryLoop
      simp [hlt, closeErroredThen, hopen, LoopResult.after]
    unfold Subscription.run Subscription.mainLoop
    simp only [Subscription.readNext, hclosed, Bool.false_eq_true, if_false, herr, if_true,
      Nat.zero_add, hloop, hlt]
    simp [countGetSub]

/-- C8 at a concrete input: a new subscription with the default options whose
stream ends at once with `io.EOF`. -/
theorem Subscription.run_eof_before_eoq_witness :
    ((Subscribe.subscription "id" "hash" []).seenEoq = false ∧
      (Subscribe.subscription "id" "hash" []).erroredClosed = false) ∧
    ∀ (rd : Readers) (c : CorroClient),
      (Subscription.run rd c World.resumeAlwaysFails (Subscribe.subscription "id" "hash" [])
        [.readErr .eof]).trace
        = [.read (.readErr .eof), .closeBody, .setErr .errUnrecoverableSub,
            .closeErrored (some .errUnrecoverableSub), .closeBody] :=
  ⟨⟨rfl, rfl⟩, fun rd c =>
    (Subscription.run_eof_before_eoq rd c World.resumeAlwaysFails
      (Subscribe.subscription "id" "hash" []) .eof [] (Or.inl rfl) rfl rfl (fun _ => rfl)).1⟩

/-- C8 refuted as stated: with `maxRetries` configured to 0, a new
subscription whose stream ends with `io.EOF` before any `EOQ` records
`ErrMaxRetryExceeded`, not `ErrUnrecoverableSub`. -/
theorem Subscription.run_eof_before_eoq_no_retries :
    (Subscribe.subscription "id" "hash" [WithRetryOptions 1000000000 0]).seenEoq = false ∧
    (Subscribe.subscription "id" "hash" [WithRetryOptions 1000000000 0]).maxRetries = 0 ∧
    ∀ (rd : Readers) (c : CorroClient),
      (Subscription.run rd c World.resumeAlwaysFails
        (Subscribe.subscription "id" "hash" [WithRetryOptions 1000000000 0])
        [.readErr .eof]).trace
        = [.read (.readErr .eof), .closeBody, .setErr .errMaxRetryExceeded,
            .closeErrored (some .errMaxRetryExceeded), .closeBody] :=
  ⟨rfl, rfl, fun _ _ => rfl⟩

/-- The last branch of the loop `MAIN`: when `readNext` fails with an error
other than `io.EOF` and `io.ErrClosedPipe` on a subscription that is not closed
and has not signalled `errored`, the pump records the error, closes `errored`
and goes on with the next frame. -/
theorem Subscription.mainLoop_unclassified_error (rd : Readers) (c : CorroClient) (w : World)
    (k : Clock) (s : Subscription) (f : Frame) (fs : List Frame) (err : Err)
    (hread : Subscription.readNext rd s f = (.error err, s))
    (hclosed : w.closedAt k.checks = false)
    (herr : ¬ (err = .eof ∨ err = .errClosedPipe)) (hopen : s.erroredClosed = false) :
    Subscription.mainLoop rd c w (f :: fs) k s
      = (Subscription.mainLoop rd c w fs { k with checks := k.checks + 1 }
          { s with err := some err, erroredClosed := true }).after
          [.read f, .setErr err, .closeErrored (some err)] := by
  rw [Subscription.mainLoop]
  simp only [hread, hclosed, Bool.false_eq_true, if_false, herr, hopen]

/-- The branch of the loop `MAIN` for a remote error event: on a subscription
that has not signalled `errored`, the pump closes `errored` with the slot
`err` as it was before the event, then stores the event's error and returns. -/
theorem Subscription.mainLoop_error_event (rd : Readers) (c : CorroClient) (w : World)
    (k : Clock) (s : Subscription) (f : Frame) (fs : List Frame) (remoteErr : Err)
    (hread : Subscription.readNext rd s f = (.ok (.error remoteErr), s))
    (hopen : s.erroredClosed = false) :
    (Subscription.mainLoop rd c w (f :: fs) k s).trace
        = [.read f, .closeErrored s.err, .setErr remoteErr] ∧
      (Subscription.mainLoop rd c w (f :: fs) k s).halt = .returned := by
  rw [Subscription.mainLoop]
  simp only [hread, hopen, Bool.false_eq_true, if_false, and_self]

/-- C1 evaluated at the failing input: after a malformed frame the pump
records `ErrUnrecoverableSub` and closes `errored`, then reads the next frame
and pushes its event to the queue; when the next frame is malformed too it
reaches `close(s.errored)` a second time, which panics. -/
theorem Subscription.run_continues_after_fatal_error (rd : Readers) (c : CorroClient) :
    (Subscription.run rd c World.resumeAlwaysFails (Subscribe.subscription "id" "hash" [])
        [.line (.error (.foreign "unexpected end of JSON input")),
          .line (.ok (event.ofEOQ 7))]).trace
      = [.read (.line (.error (.foreign "unexpected end of JSON input"))),
          .setErr .errUnrecoverableSub, .closeErrored (some .errUnrecoverableSub),
          .read (.line (.ok (event.ofEOQ 7))), .push (.eoq ⟨7⟩)] ∧
    (Subscription.run rd c World.resumeAlwaysFails (Subscribe.subscription "id" "hash" [])
        [.line (.error (.foreign "unexpected end of JSON input")),
          .line (.ok (event.ofEOQ 7))]).halt = .waiting ∧
    (Subscription.run rd c World.resumeAlwaysFails (Subscribe.subscription "id" "hash" [])
        [.line (.error (.foreign "unexpected end of JSON input")),
          .line (.error (.foreign "unexpected end of JSON input"))]).trace
      = [.read (.line (.error (.foreign "unexpected end of JSON input"))),
          .setErr .errUnrecoverableSub, .closeErrored (some .errUnrecoverableSub),
          .read (.line (.error (.foreign "unexpected end of JSON input"))),
          .setErr .errUnrecoverableSub, .closeBody] ∧
    (Subscription.run rd c World.resumeAlwaysFails (Subscribe.subscription "id" "hash" [])
        [.line (.error (.foreign "unexpected end of JSON input")),
          .line (.error (.foreign "unexpected end of JSON input"))]).halt = .crashed :=
  ⟨rfl, rfl, rfl, rfl⟩

/-- C10 evaluated at the failing input: on a remote error event the pump
closes `errored` while the slot `err` is still `nil` and only then stores the
error; a `Next` that runs between the two statements returns a nil event with
a nil error, and one that runs after them returns the event's message. -/
theorem Subscription.run_error_event_closes_before_set (rd : Readers) (c : CorroClient)
    (w : World) :
    (Subscription.run rd c w (Subscribe.subscription "id" "hash" [])
        [.line (.ok (event.ofError "boom"))]).trace
      = [.read (.line (.ok (event.ofError "boom"))), .closeErrored none,
          .setErr (.remote "boom"), .closeBody] ∧
    Subscription.Next
        (viewAfter [.read (.line (.ok (event.ofError "boom"))), .closeErrored none] View.initial)
      = [(none, none)] ∧
    Subscription.Next
        (viewAfter [.read (.line (.ok (event.ofError "boom"))), .closeErrored none,
          .setErr (.remote "boom"), .closeBody] View.initial)
      = [(none, some (.remote "boom"))] :=
  ⟨rfl, rfl, rfl⟩

/-- C9 evaluated at the failing input: `WithSkipRows` sets the option, but the
request `Subscribe` issues has the URL `c.url + "/v1/subscriptions"` whatever
the options are, without the `skip_rows` query that `postSubscription` puts in
its local `path`. -/
theorem Subscribe.request_ignores_skipRows :
    (Subscribe.options [WithSkipRows]).skipRows = true ∧
    (∀ (c : CorroClient) (payload : String) (opts : List SubOpt),
      Subscribe.request c (.ok payload) opts
        = .ok { method := "POST", url := c.url ++ "/v1/subscriptions", body := some payload }) ∧
    Subscribe.request (NewCorroClient ⟨"http://corro:8080", ""⟩) (.ok "[]") [WithSkipRows]
      = .ok { method := "POST", url := "http://corro:8080/v1/subscriptions", body := some "[]" } ∧
    (NewCorroClient ⟨"http://corro:8080", ""⟩).getURL (postSubscriptionPath true 0)
      = "http://corro:8080/v1/subscriptions?skip_rows=true" ∧
    (∀ (c : CorroClient) (payload : String) (skipRows : Bool) (fromId : Nat),
      c.postSubscription (.ok payload) skipRows fromId
        = .ok { method := "POST", url := c.url ++ "/v1/subscriptions", body := some payload }) :=
  ⟨rfl, fun _ _ _ => rfl, rfl, by decide, fun _ _ _ _ => rfl⟩

end Corroclient
